import Mathlib

/-!
Shallow embedding of the Hours-of-Service (HOS) calculator of
`src/trips/utils/hos_calculator.py` and of the API call in
`src/trips/views.py` (`HOSCalculationView.post`).

Conventions of the embedding:

* `datetime` values are rational numbers of hours since an arbitrary epoch;
  `timedelta(hours=h)` is addition of `h`, `timedelta(minutes=m)` adds
  `m / 60`, and `(b - a).total_seconds() / 3600` is `b - a`.
* Python numbers (ints and floats) are modelled as rationals `ℚ`.
* Python `while` loops are modelled by fuel-indexed recursion returning
  `Option`; `none` means the fuel was exhausted.  The entry points supply a
  fuel that the termination theorems prove sufficient, and project the result
  with `Option.getD _ []`.
* `sorted(l, key=lambda x: x.get('start_time'))` is the stable insertion
  sort `List.insertionSort` by `start_time`.
-/

namespace ELD

/-- A previous driving period, the Python dict
`{'start_time': .., 'end_time': ..}` of `previous_drives`. -/
structure DriveInterval where
  start_time : ℚ
  end_time : ℚ
deriving DecidableEq, Repr

/-- The state built by `HOSCalculator.__init__`: `current_cycle_used` and
`previous_drives` (a `None` argument is already collapsed to `[]`, exactly as
`previous_drives or []` does). -/
structure HOSCalculator where
  current_cycle_used : ℚ
  previous_drives : List DriveInterval
deriving DecidableEq, Repr

/-- Python's `%` for a rational left operand and positive divisor:
`a - b * ⌊a / b⌋` (the result has the sign of the divisor). -/
def pymod (a b : ℚ) : ℚ := a - b * ⌊a / b⌋

instance : IsTotal DriveInterval (fun a b => a.start_time ≤ b.start_time) :=
  ⟨fun a b => le_total a.start_time b.start_time⟩

instance : IsTrans DriveInterval (fun a b => a.start_time ≤ b.start_time) :=
  ⟨fun _ _ _ h1 h2 => le_trans h1 h2⟩

namespace HOSCalculator

/-- FMCSA constant from the Python class body. -/
def MAX_DRIVING_HOURS : ℚ := 11

/-- FMCSA constant from the Python class body. -/
def MAX_DUTY_WINDOW_HOURS : ℚ := 14

/-- FMCSA constant from the Python class body. -/
def REQUIRED_BREAK_MINS : ℚ := 30

/-- FMCSA constant from the Python class body. -/
def BREAK_AFTER_DRIVING_HOURS : ℚ := 8

/-- FMCSA constant from the Python class body. -/
def CYCLE_HOURS_LIMIT : ℚ := 70

/-- `sorted(self.previous_drives, key=lambda x: x.get('start_time'))`:
Python's `sorted` is a stable sort by the key, and insertion sort by `≤` on
the key produces exactly the list any stable sort by that key produces
(an element is inserted before the first strictly greater key, hence after
every earlier element with an equal key). -/
def sortDrives (l : List DriveInterval) : List DriveInterval :=
  l.insertionSort (fun a b => a.start_time ≤ b.start_time)

/-- The dictionary returned by `calculate_remaining_drive_time`. -/
structure RemainingInfo where
  remaining_cycle_hours : ℚ
  remaining_driving_hours : ℚ
  remaining_duty_window_hours : ℚ
deriving DecidableEq, Repr

/-- `HOSCalculator.calculate_remaining_drive_time` (lines 31–65). -/
def calculate_remaining_drive_time (self : HOSCalculator) : RemainingInfo :=
  let remaining_cycle := max 0 (CYCLE_HOURS_LIMIT - self.current_cycle_used)
  if self.previous_drives.isEmpty then
    { remaining_cycle_hours := remaining_cycle
      remaining_driving_hours := MAX_DRIVING_HOURS
      remaining_duty_window_hours := MAX_DUTY_WINDOW_HOURS }
  else
    let sorted_drives := sortDrives self.previous_drives
    let duty_period_start := (sorted_drives.headD ⟨0, 0⟩).start_time
    let duty_period_driving_hours :=
      (sorted_drives.map (fun d => d.end_time - d.start_time)).sum
    let last_drive_end := (sorted_drives.getLastD ⟨0, 0⟩).end_time
    let duty_window_hours := last_drive_end - duty_period_start
    { remaining_cycle_hours := remaining_cycle
      remaining_driving_hours := max 0 (MAX_DRIVING_HOURS - duty_period_driving_hours)
      remaining_duty_window_hours := max 0 (MAX_DUTY_WINDOW_HOURS - duty_window_hours) }

/-- A mandated interruption: the dicts built by `calculate_required_breaks`
(`break_type` key) and `enforce_hos_limits` (`rest_type` key); `itype` stands
for that first key. -/
structure Interruption where
  itype : String
  reason : String
  start_time : ℚ
  end_time : ℚ
deriving DecidableEq, Repr

/-- The `while remaining_trip_hours > hours_until_break` loop of
`calculate_required_breaks` (lines 94–111), with explicit fuel;
`none` means the fuel was exhausted. -/
def breaksLoopFuel : Nat → ℚ → ℚ → ℚ → Option (List Interruption)
  | 0, _, _, _ => none
  | fuel + 1, current_time, remaining_trip_hours, hours_until_break =>
    if hours_until_break < remaining_trip_hours then
      let break_start := current_time + hours_until_break
      let break_end := break_start + REQUIRED_BREAK_MINS / 60
      (breaksLoopFuel fuel break_end (remaining_trip_hours - hours_until_break)
          BREAK_AFTER_DRIVING_HOURS).map
        (fun more =>
          { itype := "30-minute rest break"
            reason := "8-hour driving limit reached"
            start_time := break_start
            end_time := break_end } :: more)
    else
      some []

/-- Fuel passed to `breaksLoopFuel`; proved sufficient below. -/
def breaksFuel (trip_duration_hours : ℚ) : Nat :=
  (⌈trip_duration_hours / BREAK_AFTER_DRIVING_HOURS⌉).toNat + 2

/-- The `previous_driving_hours` accumulation of `calculate_required_breaks`
(lines 79–84); the sum over the sorted list (0 when there are no drives). -/
def previousDrivingHours (self : HOSCalculator) : ℚ :=
  ((sortDrives self.previous_drives).map (fun d => d.end_time - d.start_time)).sum

/-- `HOSCalculator.calculate_required_breaks` (lines 67–113). -/
def calculate_required_breaks (self : HOSCalculator)
    (start_time trip_duration_hours : ℚ) : List Interruption :=
  let previous_driving_hours := previousDrivingHours self
  let hours_until_break :=
    BREAK_AFTER_DRIVING_HOURS - pymod previous_driving_hours BREAK_AFTER_DRIVING_HOURS
  (breaksLoopFuel (breaksFuel trip_duration_hours) start_time trip_duration_hours
      hours_until_break).getD []

/-- The dictionary returned by `enforce_hos_limits`. -/
structure ComplianceResult where
  trip_start_time : ℚ
  trip_end_time : ℚ
  trip_duration_hours : ℚ
  cycle_compliant : Bool
  driving_compliant : Bool
  duty_window_compliant : Bool
  required_breaks : List Interruption
  required_rest_periods : List Interruption
  current_cycle_hours : ℚ
  updated_cycle_hours : ℚ
  remaining_before_trip : RemainingInfo
deriving DecidableEq, Repr

/-- `HOSCalculator.enforce_hos_limits` (lines 115–182). -/
def enforce_hos_limits (self : HOSCalculator)
    (start_time trip_duration_hours : ℚ) : ComplianceResult :=
  let remaining := calculate_remaining_drive_time self
  let cycle_compliant : Bool :=
    decide (trip_duration_hours ≤ remaining.remaining_cycle_hours)
  let driving_compliant : Bool :=
    decide (trip_duration_hours ≤ remaining.remaining_driving_hours)
  let duty_window_compliant : Bool :=
    decide (trip_duration_hours ≤ remaining.remaining_duty_window_hours)
  let required_breaks := calculate_required_breaks self start_time trip_duration_hours
  let required_rest : List Interruption :=
    (if driving_compliant then [] else
      [{ itype := "10-hour off-duty rest"
         reason := "11-hour driving limit reached"
         start_time := start_time + remaining.remaining_driving_hours
         end_time := start_time + remaining.remaining_driving_hours + 10 }]) ++
    (if duty_window_compliant then [] else
      [{ itype := "10-hour off-duty rest"
         reason := "14-hour on-duty window limit reached"
         start_time := start_time + remaining.remaining_duty_window_hours
         end_time := start_time + remaining.remaining_duty_window_hours + 10 }])
  { trip_start_time := start_time
    trip_end_time := start_time + trip_duration_hours
    trip_duration_hours := trip_duration_hours
    cycle_compliant := cycle_compliant
    driving_compliant := driving_compliant
    duty_window_compliant := duty_window_compliant
    required_breaks := required_breaks
    required_rest_periods := required_rest
    current_cycle_hours := self.current_cycle_used
    updated_cycle_hours := self.current_cycle_used + trip_duration_hours
    remaining_before_trip := remaining }

/-- One entry of the synthesized `schedule` list.  `drive` entries carry
`start_location`/`end_location`; `brk` (`'type': 'break'`) and `rest` entries
carry `location`/`reason`, exactly the keys of the Python dicts. -/
inductive Segment
  | drive (start_time end_time duration_hours : ℚ) (start_location end_location : String)
  | brk (start_time end_time duration_hours : ℚ) (location reason : String)
  | rest (start_time end_time duration_hours : ℚ) (location reason : String)
deriving DecidableEq, Repr

namespace Segment

/-- The `start_time` field of a schedule entry. -/
def start_time : Segment → ℚ
  | drive s _ _ _ _ => s
  | brk s _ _ _ _ => s
  | rest s _ _ _ _ => s

/-- The `end_time` field of a schedule entry. -/
def end_time : Segment → ℚ
  | drive _ e _ _ _ => e
  | brk _ e _ _ _ => e
  | rest _ e _ _ _ => e

/-- The `duration_hours` field of a schedule entry. -/
def duration_hours : Segment → ℚ
  | drive _ _ d _ _ => d
  | brk _ _ d _ _ => d
  | rest _ _ d _ _ => d

/-- Whether the entry has `'type': 'drive'`. -/
def isDrive : Segment → Bool
  | drive _ _ _ _ _ => true
  | brk _ _ _ _ _ => false
  | rest _ _ _ _ _ => false

end Segment

/-- The `while remaining_hours > 0` synthesis loop of
`calculate_optimal_schedule` (lines 210–277), with explicit fuel.  The flag
`schedule_is_empty` tracks `not schedule` (whether nothing has been appended
yet), which the source uses to choose between `origin` and `'En route'` for a
drive segment's `start_location`.  Python mutates `remaining_hours` to `0`
after the final drive segment and lets the loop guard exit; here the final
branch returns directly, which yields the same list. -/
def scheduleLoopFuel (required_rest_periods required_breaks : List Interruption)
    (origin destination : String) :
    Nat → ℚ → ℚ → Bool → Option (List Segment)
  | 0, _, _, _ => none
  | fuel + 1, current_time, remaining_hours, schedule_is_empty =>
    if 0 < remaining_hours then
      match required_rest_periods.find?
          (fun r => decide (r.start_time ≤ current_time ∧ current_time < r.end_time)) with
      | some r =>
        (scheduleLoopFuel required_rest_periods required_breaks origin destination
            fuel r.end_time remaining_hours false).map
          (fun more =>
            Segment.rest r.start_time r.end_time (r.end_time - r.start_time)
              "Unknown rest location" r.reason :: more)
      | none =>
        match required_breaks.find?
            (fun b => decide (current_time < b.start_time ∧
                b.start_time < current_time + remaining_hours)) with
        | some b =>
          let drive_hours := b.start_time - current_time
          (scheduleLoopFuel required_rest_periods required_breaks origin destination
              fuel b.end_time (remaining_hours - drive_hours) false).map
            (fun more =>
              Segment.drive current_time b.start_time drive_hours
                  (if schedule_is_empty then origin else "En route") "Break location" ::
                Segment.brk b.start_time b.end_time (b.end_time - b.start_time)
                  "Break location" b.reason :: more)
        | none =>
          some [Segment.drive current_time (current_time + remaining_hours) remaining_hours
            (if schedule_is_empty then origin else "En route") destination]
    else
      some []

/-- The dictionary returned by `calculate_optimal_schedule`. -/
structure OptimalScheduleResult where
  origin : String
  destination : String
  total_duration_hours : ℚ
  start_time : ℚ
  end_time : ℚ
  schedule : List Segment
  hos_data : ComplianceResult
deriving DecidableEq, Repr

/-- Fuel passed to `scheduleLoopFuel`; proved sufficient below. -/
def scheduleFuel (hos_data : ComplianceResult) : Nat :=
  hos_data.required_rest_periods.length + hos_data.required_breaks.length + 1

/-- `HOSCalculator.calculate_optimal_schedule` (classmethod, lines 184–289).
It builds the evaluator as `cls(current_cycle_used)`, i.e. with no previous
drives. -/
def calculate_optimal_schedule (origin destination : String)
    (estimated_duration start_time : ℚ) (current_cycle_used : ℚ) :
    OptimalScheduleResult :=
  let calculator : HOSCalculator := ⟨current_cycle_used, []⟩
  let hos_data := enforce_hos_limits calculator start_time estimated_duration
  let schedule := (scheduleLoopFuel hos_data.required_rest_periods
      hos_data.required_breaks origin destination (scheduleFuel hos_data)
      start_time estimated_duration true).getD []
  { origin := origin
    destination := destination
    total_duration_hours := estimated_duration
    start_time := start_time
    end_time := start_time + (estimated_duration +
      ((schedule.map (fun s => if s.isDrive then 0 else s.duration_hours)).sum))
    schedule := schedule
    hos_data := hos_data }

/-- The loop advancement measure: interruptions the forward cursor can still
hit.  Each rest step removes the matched rest, each break step removes the
matched break, and both move the cursor strictly forward. -/
def loopMeasure (required_rest_periods required_breaks : List Interruption)
    (current_time : ℚ) : ℕ :=
  required_rest_periods.countP (fun r => decide (current_time < r.end_time)) +
    required_breaks.countP (fun b => decide (current_time < b.start_time))

/-- `calculate_remaining_drive_time` with the two list indexings of the source
(`sorted_drives[0]` on line 48 and `sorted_drives[-1]` on line 55) made
explicitly fallible; every other operation of the method is total. -/
def calculate_remaining_drive_timeE (self : HOSCalculator) :
    Except String RemainingInfo :=
  let remaining_cycle := max 0 (CYCLE_HOURS_LIMIT - self.current_cycle_used)
  if self.previous_drives.isEmpty then
    .ok { remaining_cycle_hours := remaining_cycle
          remaining_driving_hours := MAX_DRIVING_HOURS
          remaining_duty_window_hours := MAX_DUTY_WINDOW_HOURS }
  else
    let sorted_drives := sortDrives self.previous_drives
    match sorted_drives.head?, sorted_drives.getLast? with
    | some first_drive, some last_drive =>
      .ok { remaining_cycle_hours := remaining_cycle
            remaining_driving_hours := max 0 (MAX_DRIVING_HOURS -
              (sorted_drives.map (fun dr => dr.end_time - dr.start_time)).sum)
            remaining_duty_window_hours := max 0 (MAX_DUTY_WINDOW_HOURS -
              (last_drive.end_time - first_drive.start_time)) }
    | _, _ => .error "IndexError: list index out of range"

/-- `enforce_hos_limits` with every fallible step explicit: the remaining
envelope computation (list indexing) and the break-scheduling loop (fuel
exhaustion standing for non-termination).  The claim is that the error branch
is unreachable for every numeric input. -/
def enforce_hos_limitsE (self : HOSCalculator)
    (start_time trip_duration_hours : ℚ) : Except String ComplianceResult :=
  match calculate_remaining_drive_timeE self with
  | .error e => .error e
  | .ok remaining =>
    match breaksLoopFuel (breaksFuel trip_duration_hours) start_time trip_duration_hours
        (BREAK_AFTER_DRIVING_HOURS -
          pymod (previousDrivingHours self) BREAK_AFTER_DRIVING_HOURS) with
    | none => .error "nontermination"
    | some required_breaks =>
      let cycle_compliant : Bool :=
        decide (trip_duration_hours ≤ remaining.remaining_cycle_hours)
      let driving_compliant : Bool :=
        decide (trip_duration_hours ≤ remaining.remaining_driving_hours)
      let duty_window_compliant : Bool :=
        decide (trip_duration_hours ≤ remaining.remaining_duty_window_hours)
      .ok { trip_start_time := start_time
            trip_end_time := start_time + trip_duration_hours
            trip_duration_hours := trip_duration_hours
            cycle_compliant := cycle_compliant
            driving_compliant := driving_compliant
            duty_window_compliant := duty_window_compliant
            required_breaks := required_breaks
            required_rest_periods :=
              (if driving_compliant then [] else
                [{ itype := "10-hour off-duty rest"
                   reason := "11-hour driving limit reached"
                   start_time := start_time + remaining.remaining_driving_hours
                   end_time := start_time + remaining.remaining_driving_hours + 10 }]) ++
              (if duty_window_compliant then [] else
                [{ itype := "10-hour off-duty rest"
                   reason := "14-hour on-duty window limit reached"
                   start_time := start_time + remaining.remaining_duty_window_hours
                   end_time := start_time + remaining.remaining_duty_window_hours + 10 }])
            current_cycle_hours := self.current_cycle_used
            updated_cycle_hours := self.current_cycle_used + trip_duration_hours
            remaining_before_trip := remaining }

/-- The earliest `start_time` among a list of drive intervals (0 for an empty
list); used to state the specification's "earliest start". -/
def earliestStart : List DriveInterval → ℚ
  | [] => 0
  | [d] => d.start_time
  | d :: rest => min d.start_time (earliestStart rest)

/-- The latest `end_time` among a list of drive intervals (0 for an empty
list); used to state the claim's "latest end". -/
def latestEnd : List DriveInterval → ℚ
  | [] => 0
  | [d] => d.end_time
  | d :: rest => max d.end_time (latestEnd rest)

/-- The remaining-duty-window formula exactly as the claim words it:
`max(0, 14 − (latest end − earliest start))` over the prior intervals.  (The
source instead subtracts the `end_time` of the interval that sorts last by
`start_time`, which differs when intervals overlap.) -/
def remaining_duty_window_per_claim (self : HOSCalculator) : ℚ :=
  max 0 (MAX_DUTY_WINDOW_HOURS -
    (latestEnd self.previous_drives - earliestStart self.previous_drives))

end HOSCalculator

/-- The validated payload of `HOSCalculationRequestSerializer` as consumed by
`HOSCalculationView.post` (src/trips/views.py lines 43–49). -/
structure HOSCalculationRequest where
  origin : String
  destination : String
  estimated_duration : ℚ
  start_time : ℚ
  current_cycle_used : ℚ
  previous_drives : List DriveInterval
deriving DecidableEq, Repr

/-- The call to `HOSCalculator.calculate_optimal_schedule` in
`HOSCalculationView.post` (src/trips/views.py lines 60–67): the view extracts
`previous_drives` and validates it, but never forwards it to the
calculator. -/
def HOSCalculationView_post (request : HOSCalculationRequest) :
    HOSCalculator.OptimalScheduleResult :=
  HOSCalculator.calculate_optimal_schedule request.origin request.destination
    request.estimated_duration request.start_time request.current_cycle_used

end ELD

namespace ELD

/-! ### Basic facts about `pymod` -/

theorem pymod_nonneg (a : ℚ) {b : ℚ} (hb : 0 < b) : 0 ≤ pymod a b := by
  have h : (⌊a / b⌋ : ℚ) ≤ a / b := Int.floor_le _
  have h2 : b * (⌊a / b⌋ : ℚ) ≤ b * (a / b) := by
    exact mul_le_mul_of_nonneg_left h (le_of_lt hb)
  have h3 : b * (a / b) = a := by field_simp
  unfold pymod
  linarith

theorem pymod_lt (a : ℚ) {b : ℚ} (hb : 0 < b) : pymod a b < b := by
  have h : a / b < (⌊a / b⌋ : ℚ) + 1 := Int.lt_floor_add_one _
  have h2 : b * (a / b) < b * ((⌊a / b⌋ : ℚ) + 1) := by
    exact mul_lt_mul_of_pos_left h hb
  have h3 : b * (a / b) = a := by field_simp
  unfold pymod
  nlinarith

namespace HOSCalculator

/-- The first `hours_until_break` threshold is positive. -/
theorem hours_until_break_pos (a : ℚ) :
    0 < BREAK_AFTER_DRIVING_HOURS - pymod a BREAK_AFTER_DRIVING_HOURS := by
  have := pymod_lt a (b := BREAK_AFTER_DRIVING_HOURS) (by norm_num [BREAK_AFTER_DRIVING_HOURS])
  linarith

/-- The first `hours_until_break` threshold is at most 8. -/
theorem hours_until_break_le (a : ℚ) :
    BREAK_AFTER_DRIVING_HOURS - pymod a BREAK_AFTER_DRIVING_HOURS ≤
      BREAK_AFTER_DRIVING_HOURS := by
  have := pymod_nonneg a (b := BREAK_AFTER_DRIVING_HOURS) (by norm_num [BREAK_AFTER_DRIVING_HOURS])
  linarith

/-! ### Termination of the break-scheduling loop -/

/-- After the first iteration the threshold is 8; with remaining duration at
most `8 * k + 8`, fuel `k + 1` completes the loop. -/
theorem breaksLoopFuel_isSome_eight :
    ∀ (k : ℕ) (cur rem : ℚ), rem ≤ 8 * k + 8 →
      (breaksLoopFuel (k + 1) cur rem BREAK_AFTER_DRIVING_HOURS).isSome := by
  intro k
  induction k with
  | zero =>
    intro cur rem h
    have hlt : ¬ (BREAK_AFTER_DRIVING_HOURS < rem) := by
      simp only [BREAK_AFTER_DRIVING_HOURS]
      push_neg
      simpa using h
    simp [breaksLoopFuel, hlt]
  | succ n ih =>
    intro cur rem h
    by_cases hlt : BREAK_AFTER_DRIVING_HOURS < rem
    · show (breaksLoopFuel (n + 1 + 1) cur rem BREAK_AFTER_DRIVING_HOURS).isSome
      simp only [breaksLoopFuel, hlt, if_true]
      have hrec := ih (cur + BREAK_AFTER_DRIVING_HOURS + REQUIRED_BREAK_MINS / 60)
        (rem - BREAK_AFTER_DRIVING_HOURS)
        (by push_cast [BREAK_AFTER_DRIVING_HOURS] at h ⊢; linarith)
      simpa [Option.isSome_map] using hrec
    · show (breaksLoopFuel (n + 1 + 1) cur rem BREAK_AFTER_DRIVING_HOURS).isSome
      simp [breaksLoopFuel, hlt]

/-- Any starting threshold in `(0, ∞)` with remaining-minus-threshold at most
`8 * k + 8` finishes within fuel `k + 2`. -/
theorem breaksLoopFuel_isSome (k : ℕ) (cur rem thr : ℚ)
    (h2 : rem - thr ≤ 8 * k + 8) : (breaksLoopFuel (k + 2) cur rem thr).isSome := by
  by_cases hlt : thr < rem
  · show (breaksLoopFuel (k + 1 + 1) cur rem thr).isSome
    simp only [breaksLoopFuel, hlt, if_true]
    have hrec := breaksLoopFuel_isSome_eight k
      (cur + thr + REQUIRED_BREAK_MINS / 60) (rem - thr) h2
    simpa [Option.isSome_map] using hrec
  · show (breaksLoopFuel (k + 1 + 1) cur rem thr).isSome
    simp [breaksLoopFuel, hlt]

/-- The fuel `breaksFuel` chosen by the embedding of
`calculate_required_breaks` is sufficient: the loop yields exactly the list
that `calculate_required_breaks` returns. -/
theorem calculate_required_breaks_some (self : HOSCalculator) (start_time trip_duration_hours : ℚ) :
    breaksLoopFuel (breaksFuel trip_duration_hours) start_time trip_duration_hours
      (BREAK_AFTER_DRIVING_HOURS - pymod (previousDrivingHours self) BREAK_AFTER_DRIVING_HOURS)
      = some (calculate_required_breaks self start_time trip_duration_hours) := by
  set thr := BREAK_AFTER_DRIVING_HOURS - pymod (previousDrivingHours self) BREAK_AFTER_DRIVING_HOURS
    with hthr
  have h1 : 0 < thr := hours_until_break_pos _
  have hk : trip_duration_hours - thr ≤ 8 * ((⌈trip_duration_hours / 8⌉).toNat : ℚ) + 8 := by
    rcases le_or_lt trip_duration_hours 0 with hd | hd
    · have : (0 : ℚ) ≤ ((⌈trip_duration_hours / 8⌉).toNat : ℚ) := by positivity
      linarith
    · have hceil : trip_duration_hours / 8 ≤ (⌈trip_duration_hours / 8⌉ : ℚ) := Int.le_ceil _
      have hdiv : (0 : ℚ) < trip_duration_hours / 8 := div_pos hd (by norm_num)
      have hpos : (0 : ℤ) ≤ ⌈trip_duration_hours / 8⌉ := Int.ceil_nonneg hdiv.le
      have hcast : ((⌈trip_duration_hours / 8⌉).toNat : ℚ) =
          ((⌈trip_duration_hours / 8⌉ : ℤ) : ℚ) := by
        rw [← Int.toNat_of_nonneg hpos]
        exact (Int.cast_natCast _).symm
      rw [hcast]
      nlinarith
  have hsome := breaksLoopFuel_isSome ((⌈trip_duration_hours / 8⌉).toNat) start_time
    trip_duration_hours thr hk
  have hfuel : breaksFuel trip_duration_hours = (⌈trip_duration_hours / 8⌉).toNat + 2 := by
    simp [breaksFuel, BREAK_AFTER_DRIVING_HOURS]
  obtain ⟨l, hl⟩ := Option.isSome_iff_exists.mp hsome
  rw [hfuel, hl]
  simp [calculate_required_breaks, ← hthr, hfuel, hl]

/-! ### Shape of the emitted break list -/

/-- Every break emitted by the loop lasts exactly 30 minutes, starts no
earlier than `cur + thr`, and the list is strictly chronological. -/
theorem breaksLoopFuel_spec :
    ∀ (fuel : ℕ) (cur rem thr : ℚ) (l : List Interruption),
      breaksLoopFuel fuel cur rem thr = some l →
      (∀ b ∈ l, b.end_time = b.start_time + 1/2 ∧ cur + thr ≤ b.start_time) ∧
      l.Chain' (fun a b => a.end_time ≤ b.start_time) := by
  intro fuel
  induction fuel with
  | zero => intro cur rem thr l h; simp [breaksLoopFuel] at h
  | succ n ih =>
    intro cur rem thr l h
    simp only [breaksLoopFuel] at h
    by_cases hlt : thr < rem
    · rw [if_pos hlt] at h
      rw [Option.map_eq_some'] at h
      obtain ⟨l', hl', rfl⟩ := h
      obtain ⟨hmem, hchain⟩ := ih _ _ _ _ hl'
      have hhalf : REQUIRED_BREAK_MINS / 60 = (1 : ℚ)/2 := by
        norm_num [REQUIRED_BREAK_MINS]
      constructor
      · intro b hb
        rcases List.mem_cons.mp hb with rfl | hb'
        · constructor
          · simp [hhalf]
          · simp
        · obtain ⟨h1, h2⟩ := hmem b hb'
          refine ⟨h1, ?_⟩
          rw [hhalf] at h2
          have h8 : (0 : ℚ) < BREAK_AFTER_DRIVING_HOURS := by norm_num [BREAK_AFTER_DRIVING_HOURS]
          linarith
      · refine List.Chain'.cons' hchain ?_
        intro y hy
        have hymem : y ∈ l' := List.mem_of_mem_head? hy
        obtain ⟨h1, h2⟩ := hmem y hymem
        rw [hhalf] at h2
        have h8 : (0 : ℚ) < BREAK_AFTER_DRIVING_HOURS := by norm_num [BREAK_AFTER_DRIVING_HOURS]
        simp only [Interruption.mk.injEq] at *
        show (cur + thr) + REQUIRED_BREAK_MINS / 60 ≤ y.start_time
        rw [hhalf]
        linarith
    · rw [if_neg hlt] at h
      obtain rfl : ([] : List Interruption) = l := Option.some.inj h
      simp

/-- Every break returned by `calculate_required_breaks` lasts 30 minutes and
the list is chronological and non-overlapping. -/
theorem calculate_required_breaks_spec (self : HOSCalculator)
    (start_time trip_duration_hours : ℚ) :
    (∀ b ∈ calculate_required_breaks self start_time trip_duration_hours,
      b.end_time = b.start_time + 1/2) ∧
    (calculate_required_breaks self start_time trip_duration_hours).Chain'
      (fun a b => a.end_time ≤ b.start_time) := by
  have h := calculate_required_breaks_some self start_time trip_duration_hours
  obtain ⟨hmem, hchain⟩ := breaksLoopFuel_spec _ _ _ _ _ h
  exact ⟨fun b hb => (hmem b hb).1, hchain⟩

/-! ### Accessor equations for `Segment` -/

@[simp] theorem Segment.start_time_drive (s e d : ℚ) (a b : String) :
    (Segment.drive s e d a b).start_time = s := rfl

@[simp] theorem Segment.start_time_brk (s e d : ℚ) (a b : String) :
    (Segment.brk s e d a b).start_time = s := rfl

@[simp] theorem Segment.start_time_rest (s e d : ℚ) (a b : String) :
    (Segment.rest s e d a b).start_time = s := rfl

@[simp] theorem Segment.end_time_drive (s e d : ℚ) (a b : String) :
    (Segment.drive s e d a b).end_time = e := rfl

@[simp] theorem Segment.end_time_brk (s e d : ℚ) (a b : String) :
    (Segment.brk s e d a b).end_time = e := rfl

@[simp] theorem Segment.end_time_rest (s e d : ℚ) (a b : String) :
    (Segment.rest s e d a b).end_time = e := rfl

@[simp] theorem Segment.duration_hours_drive (s e d : ℚ) (a b : String) :
    (Segment.drive s e d a b).duration_hours = d := rfl

@[simp] theorem Segment.duration_hours_brk (s e d : ℚ) (a b : String) :
    (Segment.brk s e d a b).duration_hours = d := rfl

@[simp] theorem Segment.duration_hours_rest (s e d : ℚ) (a b : String) :
    (Segment.rest s e d a b).duration_hours = d := rfl

@[simp] theorem Segment.isDrive_drive (s e d : ℚ) (a b : String) :
    (Segment.drive s e d a b).isDrive = true := rfl

@[simp] theorem Segment.isDrive_brk (s e d : ℚ) (a b : String) :
    (Segment.brk s e d a b).isDrive = false := rfl

@[simp] theorem Segment.isDrive_rest (s e d : ℚ) (a b : String) :
    (Segment.rest s e d a b).isDrive = false := rfl

/-! ### Termination of the synthesis loop -/

/-- If `q` implies `p` pointwise on `l` and some member satisfies `p` but not
`q`, then strictly fewer members satisfy `q`. -/
theorem countP_lt_of_mem {α : Type} (p q : α → Bool) :
    ∀ (l : List α), (∀ x ∈ l, q x = true → p x = true) →
      ∀ a ∈ l, p a = true → q a = false → l.countP q < l.countP p := by
  intro l
  induction l with
  | nil => intro _ a ha; simp at ha
  | cons x xs ih =>
    intro hpq a ha hpa hqa
    rw [List.countP_cons, List.countP_cons]
    rcases List.mem_cons.mp ha with rfl | ha'
    · have hle : xs.countP q ≤ xs.countP p :=
        List.countP_mono_left (fun y hy => hpq y (List.mem_cons_of_mem _ hy))
      rw [hqa, hpa]
      simp
      omega
    · have hlt : xs.countP q < xs.countP p :=
        ih (fun y hy => hpq y (List.mem_cons_of_mem _ hy)) a ha' hpa hqa
      by_cases hqx : q x = true
      · have hpx : p x = true := hpq x (List.mem_cons_self _ _) hqx
        rw [hqx, hpx]
        omega
      · rw [Bool.not_eq_true] at hqx
        rw [hqx]
        simp
        omega

/-- Fuel exceeding the loop measure suffices for the synthesis loop, provided
every break window is sensibly oriented (`start ≤ end`). -/
theorem scheduleLoopFuel_isSome (required_rest_periods required_breaks : List Interruption)
    (origin destination : String)
    (hwf : ∀ b ∈ required_breaks, b.start_time ≤ b.end_time) :
    ∀ (fuel : ℕ) (cur rem : ℚ) (flag : Bool),
      loopMeasure required_rest_periods required_breaks cur < fuel →
      (scheduleLoopFuel required_rest_periods required_breaks origin destination
        fuel cur rem flag).isSome := by
  intro fuel
  induction fuel with
  | zero => intro cur rem flag h; exact absurd h (Nat.not_lt_zero _)
  | succ n ih =>
    intro cur rem flag h
    simp only [scheduleLoopFuel]
    by_cases hrem : 0 < rem
    · rw [if_pos hrem]
      cases hfind : required_rest_periods.find?
          (fun r => decide (r.start_time ≤ cur ∧ cur < r.end_time)) with
      | some r =>
        have hr := List.find?_some hfind
        have hrmem : r ∈ required_rest_periods := List.mem_of_find?_eq_some hfind
        rw [decide_eq_true_iff] at hr
        obtain ⟨hr1, hr2⟩ := hr
        have hrest : required_rest_periods.countP (fun x => decide (r.end_time < x.end_time)) <
            required_rest_periods.countP (fun x => decide (cur < x.end_time)) := by
          refine countP_lt_of_mem _ _ _ ?_ r hrmem (by simpa using hr2) (by simp)
          intro x _ hx
          rw [decide_eq_true_iff] at hx ⊢
          linarith
        have hbrk : required_breaks.countP (fun x => decide (r.end_time < x.start_time)) ≤
            required_breaks.countP (fun x => decide (cur < x.start_time)) := by
          refine List.countP_mono_left ?_
          intro x _ hx
          rw [decide_eq_true_iff] at hx ⊢
          linarith
        have hm : loopMeasure required_rest_periods required_breaks r.end_time < n := by
          unfold loopMeasure at h ⊢
          omega
        have := ih r.end_time rem false hm
        simpa [Option.isSome_map] using this
      | none =>
        cases hfindb : required_breaks.find?
            (fun b => decide (cur < b.start_time ∧ b.start_time < cur + rem)) with
        | some b =>
          have hb := List.find?_some hfindb
          have hbmem : b ∈ required_breaks := List.mem_of_find?_eq_some hfindb
          rw [decide_eq_true_iff] at hb
          obtain ⟨hb1, hb2⟩ := hb
          have hbe : b.start_time ≤ b.end_time := hwf b hbmem
          have hrest : required_rest_periods.countP
                (fun x => decide (b.end_time < x.end_time)) ≤
              required_rest_periods.countP (fun x => decide (cur < x.end_time)) := by
            refine List.countP_mono_left ?_
            intro x _ hx
            rw [decide_eq_true_iff] at hx ⊢
            linarith
          have hbrk : required_breaks.countP (fun x => decide (b.end_time < x.start_time)) <
              required_breaks.countP (fun x => decide (cur < x.start_time)) := by
            refine countP_lt_of_mem _ _ _ ?_ b hbmem (by simpa using hb1) ?_
            · intro x _ hx
              rw [decide_eq_true_iff] at hx ⊢
              linarith
            · simp
              linarith
          have hm : loopMeasure required_rest_periods required_breaks b.end_time < n := by
            unfold loopMeasure at h ⊢
            omega
          have := ih b.end_time (rem - (b.start_time - cur)) false hm
          simpa [Option.isSome_map] using this
        | none => simp
    · rw [if_neg hrem]
      simp

/-- Across a successful run of the synthesis loop, the `duration_hours` of the
drive segments sum to the remaining driving hours at entry (clamped at 0). -/
theorem scheduleLoopFuel_driveSum (required_rest_periods required_breaks : List Interruption)
    (origin destination : String) :
    ∀ (fuel : ℕ) (cur rem : ℚ) (flag : Bool) (l : List Segment),
      scheduleLoopFuel required_rest_periods required_breaks origin destination
        fuel cur rem flag = some l →
      (l.map (fun s => if s.isDrive then s.duration_hours else 0)).sum =
        if 0 < rem then rem else 0 := by
  intro fuel
  induction fuel with
  | zero => intro cur rem flag l h; simp [scheduleLoopFuel] at h
  | succ n ih =>
    intro cur rem flag l h
    simp only [scheduleLoopFuel] at h
    by_cases hrem : 0 < rem
    · rw [if_pos hrem] at h
      cases hfind : required_rest_periods.find?
          (fun r => decide (r.start_time ≤ cur ∧ cur < r.end_time)) with
      | some r =>
        rw [hfind, Option.map_eq_some'] at h
        obtain ⟨l', hl', rfl⟩ := h
        have := ih _ _ _ _ hl'
        simp [this, if_pos hrem]
      | none =>
        rw [hfind] at h
        cases hfindb : required_breaks.find?
            (fun b => decide (cur < b.start_time ∧ b.start_time < cur + rem)) with
        | some b =>
          rw [hfindb, Option.map_eq_some'] at h
          obtain ⟨l', hl', rfl⟩ := h
          have hb := List.find?_some hfindb
          rw [decide_eq_true_iff] at hb
          obtain ⟨hb1, hb2⟩ := hb
          have hpos : 0 < rem - (b.start_time - cur) := by linarith
          have := ih _ _ _ _ hl'
          rw [if_pos hpos] at this
          simp [this, if_pos hrem]
        | none =>
          rw [hfindb] at h
          obtain rfl := (Option.some.inj h).symm
          simp [if_pos hrem]
    · rw [if_neg hrem] at h
      obtain rfl := (Option.some.inj h).symm
      simp [if_neg hrem]

/-! ### Projection equations -/

@[simp] theorem enforce_hos_limits_required_breaks (self : HOSCalculator) (s d : ℚ) :
    (enforce_hos_limits self s d).required_breaks = calculate_required_breaks self s d := rfl

@[simp] theorem enforce_hos_limits_remaining_before_trip (self : HOSCalculator) (s d : ℚ) :
    (enforce_hos_limits self s d).remaining_before_trip =
      calculate_remaining_drive_time self := rfl

@[simp] theorem enforce_hos_limits_cycle_compliant (self : HOSCalculator) (s d : ℚ) :
    (enforce_hos_limits self s d).cycle_compliant =
      decide (d ≤ (calculate_remaining_drive_time self).remaining_cycle_hours) := rfl

@[simp] theorem enforce_hos_limits_driving_compliant (self : HOSCalculator) (s d : ℚ) :
    (enforce_hos_limits self s d).driving_compliant =
      decide (d ≤ (calculate_remaining_drive_time self).remaining_driving_hours) := rfl

@[simp] theorem enforce_hos_limits_duty_window_compliant (self : HOSCalculator) (s d : ℚ) :
    (enforce_hos_limits self s d).duty_window_compliant =
      decide (d ≤ (calculate_remaining_drive_time self).remaining_duty_window_hours) := rfl

@[simp] theorem enforce_hos_limits_updated_cycle_hours (self : HOSCalculator) (s d : ℚ) :
    (enforce_hos_limits self s d).updated_cycle_hours = self.current_cycle_used + d := rfl

theorem enforce_hos_limits_required_rest_periods (self : HOSCalculator) (s d : ℚ) :
    (enforce_hos_limits self s d).required_rest_periods =
      (if d ≤ (calculate_remaining_drive_time self).remaining_driving_hours then [] else
        [{ itype := "10-hour off-duty rest"
           reason := "11-hour driving limit reached"
           start_time := s + (calculate_remaining_drive_time self).remaining_driving_hours
           end_time := s + (calculate_remaining_drive_time self).remaining_driving_hours + 10 }]) ++
      (if d ≤ (calculate_remaining_drive_time self).remaining_duty_window_hours then [] else
        [{ itype := "10-hour off-duty rest"
           reason := "14-hour on-duty window limit reached"
           start_time := s + (calculate_remaining_drive_time self).remaining_duty_window_hours
           end_time := s + (calculate_remaining_drive_time self).remaining_duty_window_hours + 10 }]) := by
  show (if decide (d ≤ _) = true then _ else _) ++ (if decide (d ≤ _) = true then _ else _) = _
  simp only [decide_eq_true_eq]

@[simp] theorem calculate_optimal_schedule_schedule (o dst : String) (dur s cu : ℚ) :
    (calculate_optimal_schedule o dst dur s cu).schedule =
      (scheduleLoopFuel (enforce_hos_limits ⟨cu, []⟩ s dur).required_rest_periods
        (enforce_hos_limits ⟨cu, []⟩ s dur).required_breaks o dst
        (scheduleFuel (enforce_hos_limits ⟨cu, []⟩ s dur)) s dur true).getD [] := rfl

@[simp] theorem calculate_optimal_schedule_hos_data (o dst : String) (dur s cu : ℚ) :
    (calculate_optimal_schedule o dst dur s cu).hos_data = enforce_hos_limits ⟨cu, []⟩ s dur := rfl

@[simp] theorem calculate_optimal_schedule_start_time (o dst : String) (dur s cu : ℚ) :
    (calculate_optimal_schedule o dst dur s cu).start_time = s := rfl

@[simp] theorem calculate_optimal_schedule_end_time (o dst : String) (dur s cu : ℚ) :
    (calculate_optimal_schedule o dst dur s cu).end_time =
      s + (dur + (((calculate_optimal_schedule o dst dur s cu).schedule.map
        (fun seg => if seg.isDrive then 0 else seg.duration_hours)).sum)) := rfl

/-! ### Evaluation helpers for the fresh-calculator (`previous_drives = []`) path -/

theorem calculate_remaining_drive_time_no_drives (cu : ℚ) :
    calculate_remaining_drive_time ⟨cu, []⟩ =
      ⟨max 0 (70 - cu), 11, 14⟩ := by
  norm_num [calculate_remaining_drive_time, CYCLE_HOURS_LIMIT, MAX_DRIVING_HOURS,
    MAX_DUTY_WINDOW_HOURS]

theorem previousDrivingHours_no_drives (cu : ℚ) : previousDrivingHours ⟨cu, []⟩ = 0 := by
  simp [previousDrivingHours, sortDrives]

theorem hours_until_break_no_drives (cu : ℚ) :
    BREAK_AFTER_DRIVING_HOURS -
      pymod (previousDrivingHours ⟨cu, []⟩) BREAK_AFTER_DRIVING_HOURS = 8 := by
  rw [previousDrivingHours_no_drives]
  norm_num [pymod, BREAK_AFTER_DRIVING_HOURS]

/-- In any state, a trip not exceeding the first break threshold schedules no
break. -/
theorem calculate_required_breaks_eq_nil (self : HOSCalculator) (s d : ℚ)
    (h : d ≤ BREAK_AFTER_DRIVING_HOURS -
      pymod (previousDrivingHours self) BREAK_AFTER_DRIVING_HOURS) :
    calculate_required_breaks self s d = [] := by
  have hs := calculate_required_breaks_some self s d
  obtain ⟨k, hk⟩ : ∃ k, breaksFuel d = k + 1 := ⟨_ + 1, rfl⟩
  rw [hk] at hs
  simp only [breaksLoopFuel] at hs
  rw [if_neg (not_lt.mpr h)] at hs
  exact (Option.some.inj hs).symm

/-- With no prior drives, a trip of more than 8 but at most 16 hours schedules
exactly one break, 8 hours in. -/
theorem calculate_required_breaks_no_drives_single (cu s d : ℚ)
    (h1 : 8 < d) (h2 : d ≤ 16) :
    calculate_required_breaks ⟨cu, []⟩ s d =
      [{ itype := "30-minute rest break"
         reason := "8-hour driving limit reached"
         start_time := s + 8
         end_time := s + 8 + 1/2 }] := by
  have hs := calculate_required_breaks_some ⟨cu, []⟩ s d
  rw [hours_until_break_no_drives] at hs
  obtain ⟨k, hk⟩ : ∃ k, breaksFuel d = k + 1 + 1 := ⟨_, rfl⟩
  rw [hk] at hs
  simp only [breaksLoopFuel, BREAK_AFTER_DRIVING_HOURS, REQUIRED_BREAK_MINS] at hs
  rw [if_pos h1, if_neg (by push_neg; linarith)] at hs
  simp only [Option.map_some'] at hs
  have := (Option.some.inj hs).symm
  rw [this]
  norm_num

/-- Every break scheduled by `calculate_required_breaks` has `start ≤ end`. -/
theorem calculate_required_breaks_wf (self : HOSCalculator) (s d : ℚ) :
    ∀ b ∈ calculate_required_breaks self s d, b.start_time ≤ b.end_time := by
  intro b hb
  have h := ((calculate_required_breaks_spec self s d).1 b hb)
  linarith

/-- The fuel `scheduleFuel` chosen by the embedding of
`calculate_optimal_schedule` is sufficient: the synthesis loop yields exactly
the schedule that `calculate_optimal_schedule` returns. -/
theorem calculate_optimal_schedule_schedule_some (o dst : String) (dur s cu : ℚ) :
    scheduleLoopFuel (enforce_hos_limits ⟨cu, []⟩ s dur).required_rest_periods
      (enforce_hos_limits ⟨cu, []⟩ s dur).required_breaks o dst
      (scheduleFuel (enforce_hos_limits ⟨cu, []⟩ s dur)) s dur true =
      some ((calculate_optimal_schedule o dst dur s cu).schedule) := by
  have hwf : ∀ b ∈ (enforce_hos_limits ⟨cu, []⟩ s dur).required_breaks,
      b.start_time ≤ b.end_time := by
    rw [enforce_hos_limits_required_breaks]
    exact calculate_required_breaks_wf _ _ _
  have hm : loopMeasure (enforce_hos_limits ⟨cu, []⟩ s dur).required_rest_periods
      (enforce_hos_limits ⟨cu, []⟩ s dur).required_breaks s <
      scheduleFuel (enforce_hos_limits ⟨cu, []⟩ s dur) := by
    unfold loopMeasure scheduleFuel
    have h1 := List.countP_le_length
      (fun r => decide (s < r.end_time))
      (l := (enforce_hos_limits ⟨cu, []⟩ s dur).required_rest_periods)
    have h2 := List.countP_le_length
      (fun b => decide (s < b.start_time))
      (l := (enforce_hos_limits ⟨cu, []⟩ s dur).required_breaks)
    omega
  have hsome := scheduleLoopFuel_isSome _ _ o dst hwf _ s dur true hm
  obtain ⟨l, hl⟩ := Option.isSome_iff_exists.mp hsome
  rw [hl, calculate_optimal_schedule_schedule, hl]
  rfl

/-! ### Concrete evaluation at a 17-hour trip from a fresh calculator -/

theorem breaksFuel_17 : breaksFuel 17 = 5 := by
  have h : ⌈(17:ℚ)/8⌉ = 3 := by
    rw [Int.ceil_eq_iff]
    norm_num
  show (⌈(17:ℚ)/8⌉).toNat + 2 = 5
  rw [h]
  omega

theorem calculate_required_breaks_17 :
    calculate_required_breaks ⟨0, []⟩ 0 17 =
      [{ itype := "30-minute rest break"
         reason := "8-hour driving limit reached"
         start_time := 8
         end_time := 17/2 },
       { itype := "30-minute rest break"
         reason := "8-hour driving limit reached"
         start_time := 33/2
         end_time := 17 }] := by
  have hs := calculate_required_breaks_some ⟨0, []⟩ 0 17
  rw [hours_until_break_no_drives, breaksFuel_17] at hs
  norm_num [breaksLoopFuel, BREAK_AFTER_DRIVING_HOURS, REQUIRED_BREAK_MINS] at hs
  rw [← hs]

theorem required_rest_periods_17 :
    (enforce_hos_limits ⟨0, []⟩ 0 17).required_rest_periods =
      [{ itype := "10-hour off-duty rest"
         reason := "11-hour driving limit reached"
         start_time := 11
         end_time := 21 },
       { itype := "10-hour off-duty rest"
         reason := "14-hour on-duty window limit reached"
         start_time := 14
         end_time := 24 }] := by
  rw [enforce_hos_limits_required_rest_periods, calculate_remaining_drive_time_no_drives]
  norm_num

theorem schedule_17 :
    (calculate_optimal_schedule "A" "B" 17 0 0).schedule =
      [Segment.drive 0 8 8 "A" "Break location",
       Segment.brk 8 (17/2) (1/2) "Break location" "8-hour driving limit reached",
       Segment.drive (17/2) (33/2) 8 "En route" "Break location",
       Segment.brk (33/2) 17 (1/2) "Break location" "8-hour driving limit reached",
       Segment.rest 11 21 10 "Unknown rest location" "11-hour driving limit reached",
       Segment.rest 14 24 10 "Unknown rest location" "14-hour on-duty window limit reached",
       Segment.drive 24 25 1 "En route" "B"] := by
  have hfuel : scheduleFuel (enforce_hos_limits ⟨0, []⟩ 0 17) = 5 := by
    simp [scheduleFuel, required_rest_periods_17, calculate_required_breaks_17]
  rw [calculate_optimal_schedule_schedule, hfuel, required_rest_periods_17,
    enforce_hos_limits_required_breaks, calculate_required_breaks_17]
  norm_num [scheduleLoopFuel, List.find?]

/-! ### The sorted drive list: permutation, sortedness, head and last -/

theorem sortDrives_perm (l : List DriveInterval) : (sortDrives l).Perm l :=
  List.perm_insertionSort _ _

theorem sortDrives_sorted (l : List DriveInterval) :
    (sortDrives l).Sorted (fun a b => a.start_time ≤ b.start_time) :=
  List.sorted_insertionSort _ _

theorem earliestStart_le (l : List DriveInterval) :
    ∀ d ∈ l, earliestStart l ≤ d.start_time := by
  induction l with
  | nil => simp
  | cons x xs ih =>
    intro d hd
    cases xs with
    | nil =>
      rw [List.mem_singleton] at hd
      subst hd
      simp [earliestStart]
    | cons y ys =>
      rcases List.mem_cons.mp hd with rfl | hd'
      · exact min_le_left _ _
      · exact le_trans (min_le_right _ _) (ih d hd')

theorem earliestStart_mem (l : List DriveInterval) (h : l ≠ []) :
    ∃ d ∈ l, d.start_time = earliestStart l := by
  induction l with
  | nil => exact absurd rfl h
  | cons x xs ih =>
    cases xs with
    | nil => exact ⟨x, List.mem_singleton_self x, rfl⟩
    | cons y ys =>
      rcases le_total x.start_time (earliestStart (y :: ys)) with hle | hle
      · refine ⟨x, List.mem_cons_self _ _, ?_⟩
        show x.start_time = min x.start_time (earliestStart (y :: ys))
        rw [min_eq_left hle]
      · obtain ⟨d, hdmem, hdeq⟩ := ih (by simp)
        refine ⟨d, List.mem_cons_of_mem _ hdmem, ?_⟩
        show d.start_time = min x.start_time (earliestStart (y :: ys))
        rw [min_eq_right hle, hdeq]

/-- The first element of the start-sorted drive list carries the earliest
start time. -/
theorem sortDrives_headD_start (l : List DriveInterval) (h : l ≠ []) :
    ((sortDrives l).headD ⟨0, 0⟩).start_time = earliestStart l := by
  have hperm := sortDrives_perm l
  have hsorted := sortDrives_sorted l
  cases hs : sortDrives l with
  | nil =>
    rw [hs] at hperm
    exact absurd hperm.symm.eq_nil h
  | cons a t =>
    rw [hs] at hperm hsorted
    simp only [List.headD_cons]
    apply le_antisymm
    · obtain ⟨d₀, hd₀mem, hd₀eq⟩ := earliestStart_mem l h
      rw [← hd₀eq]
      have hd₀s : d₀ ∈ a :: t := hperm.mem_iff.mpr hd₀mem
      rcases List.mem_cons.mp hd₀s with rfl | hmem'
      · exact le_refl _
      · exact List.rel_of_sorted_cons hsorted d₀ hmem'
    · exact earliestStart_le l a (hperm.mem_iff.mp (List.mem_cons_self a t))

/-! ### The fallible embedding agrees with the total one -/

theorem calculate_remaining_drive_timeE_ok (self : HOSCalculator) :
    calculate_remaining_drive_timeE self = .ok (calculate_remaining_drive_time self) := by
  by_cases h : self.previous_drives.isEmpty
  · simp [calculate_remaining_drive_timeE, calculate_remaining_drive_time, h]
  · have hne : self.previous_drives ≠ [] := by simpa [List.isEmpty_iff] using h
    cases hs : sortDrives self.previous_drives with
    | nil =>
      have hperm := sortDrives_perm self.previous_drives
      rw [hs] at hperm
      exact absurd hperm.symm.eq_nil hne
    | cons a t =>
      cases hgl : (a :: t).getLast? with
      | none => simp at hgl
      | some lastd =>
        have hld : (a :: t).getLastD ⟨0, 0⟩ = lastd := by
          rw [List.getLastD_eq_getLast?, hgl]
          rfl
        simp only [calculate_remaining_drive_timeE, calculate_remaining_drive_time,
          if_neg h, hs, List.head?_cons, hgl, List.headD_cons, hld]

end HOSCalculator

end ELD

namespace ELD

open HOSCalculator

/-! ### The claims -/

/-- Claim C1 (refuted — code bug): the synthesized schedule is claimed to be
contiguous and non-overlapping with the last end equal to the trip end plus
the total interruption time, but at a fresh 17-hour trip the loop emits the
whole rest window `[11, 21]` after the cursor has already reached hour 17, so
consecutive segments fail `segment[i].end = segment[i+1].start`. -/
theorem claim1_contiguity_violation :
    (calculate_optimal_schedule "A" "B" 17 0 0).schedule =
      [Segment.drive 0 8 8 "A" "Break location",
       Segment.brk 8 (17/2) (1/2) "Break location" "8-hour driving limit reached",
       Segment.drive (17/2) (33/2) 8 "En route" "Break location",
       Segment.brk (33/2) 17 (1/2) "Break location" "8-hour driving limit reached",
       Segment.rest 11 21 10 "Unknown rest location" "11-hour driving limit reached",
       Segment.rest 14 24 10 "Unknown rest location" "14-hour on-duty window limit reached",
       Segment.drive 24 25 1 "En route" "B"] ∧
    ¬ List.Chain' (fun a b => a.end_time = b.start_time)
        ((calculate_optimal_schedule "A" "B" 17 0 0).schedule) := by
  refine ⟨schedule_17, ?_⟩
  rw [schedule_17]
  norm_num [List.chain'_cons]

/-- Claim C2 counterexample: with overlapping prior intervals
`[(0,10), (1,2)]` the claim's formula
`max(0, 14 − (latest end − earliest start))` gives `max(0, 14 − 10) = 4`,
but the code subtracts the end of the interval that sorts last by start time
(`2`), returning `12`. -/
theorem claim2_latest_end_counterexample :
    remaining_duty_window_per_claim ⟨0, [⟨0, 10⟩, ⟨1, 2⟩]⟩ = 4 ∧
    (calculate_remaining_drive_time ⟨0, [⟨0, 10⟩, ⟨1, 2⟩]⟩).remaining_duty_window_hours = 12 := by
  constructor
  · norm_num [remaining_duty_window_per_claim, latestEnd, earliestStart,
      MAX_DUTY_WINDOW_HOURS, max_def]
  · norm_num [calculate_remaining_drive_time, sortDrives, List.insertionSort,
      List.orderedInsert, MAX_DUTY_WINDOW_HOURS, MAX_DRIVING_HOURS,
      CYCLE_HOURS_LIMIT, max_def]

/-- Claim C2 (amended): `remaining_cycle_hours = max(0, 70 − cycle_used)`
always; with no prior drives the result is exactly
`(max(0, 70 − cycle_used), 11, 14)`; with prior drives,
`remaining_driving = max(0, 11 − Σ durations)` over the original list, the
head of the start-sorted list carries the earliest start, and
`remaining_duty_window = max(0, 14 − (end of the interval sorting last by
start − earliest start))` (not the latest end, which differs for overlapping
intervals). -/
theorem claim2_remaining_envelope (self : HOSCalculator) :
    (calculate_remaining_drive_time self).remaining_cycle_hours =
      max 0 (70 - self.current_cycle_used) ∧
    (self.previous_drives = [] →
      calculate_remaining_drive_time self =
        ⟨max 0 (70 - self.current_cycle_used), 11, 14⟩) ∧
    (self.previous_drives ≠ [] →
      (calculate_remaining_drive_time self).remaining_driving_hours =
        max 0 (11 - (self.previous_drives.map
          (fun dr => dr.end_time - dr.start_time)).sum) ∧
      ((sortDrives self.previous_drives).headD ⟨0, 0⟩).start_time =
        earliestStart self.previous_drives ∧
      (calculate_remaining_drive_time self).remaining_duty_window_hours =
        max 0 (14 - (((sortDrives self.previous_drives).getLastD ⟨0, 0⟩).end_time -
          earliestStart self.previous_drives))) := by
  refine ⟨?_, ?_, ?_⟩
  · by_cases h : self.previous_drives.isEmpty <;>
      simp [calculate_remaining_drive_time, h, CYCLE_HOURS_LIMIT]
  · intro h
    simp [calculate_remaining_drive_time, h, CYCLE_HOURS_LIMIT, MAX_DRIVING_HOURS,
      MAX_DUTY_WINDOW_HOURS]
  · intro h
    have hE : self.previous_drives.isEmpty = false := by
      simp [List.isEmpty_iff, h]
    have hsum : ((sortDrives self.previous_drives).map
        (fun dr => dr.end_time - dr.start_time)).sum =
        (self.previous_drives.map (fun dr => dr.end_time - dr.start_time)).sum :=
      ((sortDrives_perm self.previous_drives).map _).sum_eq
    have hh := sortDrives_headD_start self.previous_drives h
    refine ⟨?_, hh, ?_⟩
    · simp [calculate_remaining_drive_time, hE, MAX_DRIVING_HOURS, hsum]
    · have hh2 : ((sortDrives self.previous_drives).head?.getD
          (⟨0, 0⟩ : DriveInterval)).start_time = earliestStart self.previous_drives := by
        rw [← List.headD_eq_head?]
        exact hh
      simp [calculate_remaining_drive_time, hE, MAX_DUTY_WINDOW_HOURS, hh2]

/-- Witness for claim C2 (amended) at a calculator with two prior drives. -/
theorem claim2_remaining_envelope_witness :
    (calculate_remaining_drive_time ⟨5, [⟨1, 3⟩, ⟨0, 2⟩]⟩).remaining_driving_hours =
      max 0 (11 - (([⟨1, 3⟩, ⟨0, 2⟩] : List DriveInterval).map
        (fun dr => dr.end_time - dr.start_time)).sum) :=
  ((claim2_remaining_envelope ⟨5, [⟨1, 3⟩, ⟨0, 2⟩]⟩).2.2 (by simp)).1

/-- Claim C6: for every positive duration, the returned `end_time` is
`start_time + duration + Σ (non-drive segment durations)`, and the sum of all
segment durations is exactly `end_time − start_time`. -/
theorem claim6_time_accounting (o dst : String) (dur s cu : ℚ) (hd : 0 < dur) :
    (calculate_optimal_schedule o dst dur s cu).end_time =
      s + dur + (((calculate_optimal_schedule o dst dur s cu).schedule.map
        (fun seg => if seg.isDrive then 0 else seg.duration_hours)).sum) ∧
    ((calculate_optimal_schedule o dst dur s cu).schedule.map Segment.duration_hours).sum =
      (calculate_optimal_schedule o dst dur s cu).end_time -
        (calculate_optimal_schedule o dst dur s cu).start_time := by
  have hsome := calculate_optimal_schedule_schedule_some o dst dur s cu
  have hdrive := scheduleLoopFuel_driveSum _ _ o dst _ s dur true _ hsome
  rw [if_pos hd] at hdrive
  constructor
  · rw [calculate_optimal_schedule_end_time]
    ring
  · rw [calculate_optimal_schedule_end_time, calculate_optimal_schedule_start_time]
    have hsplit : ∀ l : List Segment, (l.map Segment.duration_hours).sum =
        (l.map (fun seg => if seg.isDrive then seg.duration_hours else 0)).sum +
        (l.map (fun seg => if seg.isDrive then 0 else seg.duration_hours)).sum := by
      intro l
      induction l with
      | nil => simp
      | cons x xs ih => cases x <;> simp [ih] <;> ring
    rw [hsplit, hdrive]
    ring

/-- Witness for claim C6 at a fresh 10-hour trip. -/
theorem claim6_time_accounting_witness :
    ((calculate_optimal_schedule "A" "B" 10 0 0).schedule.map Segment.duration_hours).sum =
      (calculate_optimal_schedule "A" "B" 10 0 0).end_time -
        (calculate_optimal_schedule "A" "B" 10 0 0).start_time :=
  (claim6_time_accounting "A" "B" 10 0 0 (by norm_num)).2

/-- Claim C3: `calculate_required_breaks` always produces a chronological,
non-overlapping list of 30-minute breaks, and for a 10-hour trip with no
prior drives it returns exactly one break, starting at `start_time + 8h` and
lasting 30 minutes. -/
theorem claim3_required_breaks :
    (∀ (self : HOSCalculator) (s d : ℚ),
      ((calculate_required_breaks self s d).Chain'
        (fun a b => a.end_time ≤ b.start_time)) ∧
      (∀ b ∈ calculate_required_breaks self s d,
        b.end_time = b.start_time + 1/2 ∧ b.start_time < b.end_time)) ∧
    (∀ (cu s : ℚ), calculate_required_breaks ⟨cu, []⟩ s 10 =
      [{ itype := "30-minute rest break"
         reason := "8-hour driving limit reached"
         start_time := s + 8
         end_time := s + 8 + 1/2 }]) := by
  constructor
  · intro self s d
    obtain ⟨hmem, hchain⟩ := calculate_required_breaks_spec self s d
    refine ⟨hchain, fun b hb => ⟨hmem b hb, ?_⟩⟩
    have := hmem b hb
    linarith
  · intro cu s
    exact calculate_required_breaks_no_drives_single cu s 10 (by norm_num) (by norm_num)

/-- Claim C4: `enforce_hos_limits` appends a 10-hour rest at
`start + remaining_driving_hours` exactly when the driving limit is violated
and an independent 10-hour rest at `start + remaining_duty_window_hours`
exactly when the duty window is violated (no merging even when the two rests
overlap, as at a fresh 20-hour trip); and for a fresh 12-hour trip the flags
are (true, false, true) with at least one break and one rest emitted. -/
theorem claim4_rest_insertion :
    (∀ (self : HOSCalculator) (s d : ℚ),
      (enforce_hos_limits self s d).required_rest_periods =
        (if d ≤ (calculate_remaining_drive_time self).remaining_driving_hours then [] else
          [{ itype := "10-hour off-duty rest"
             reason := "11-hour driving limit reached"
             start_time := s + (calculate_remaining_drive_time self).remaining_driving_hours
             end_time :=
               s + (calculate_remaining_drive_time self).remaining_driving_hours + 10 }]) ++
        (if d ≤ (calculate_remaining_drive_time self).remaining_duty_window_hours then [] else
          [{ itype := "10-hour off-duty rest"
             reason := "14-hour on-duty window limit reached"
             start_time := s + (calculate_remaining_drive_time self).remaining_duty_window_hours
             end_time :=
               s + (calculate_remaining_drive_time self).remaining_duty_window_hours + 10 }]) ∧
      (enforce_hos_limits self s d).required_rest_periods.length =
        (if (enforce_hos_limits self s d).driving_compliant then 0 else 1) +
        (if (enforce_hos_limits self s d).duty_window_compliant then 0 else 1)) ∧
    ((enforce_hos_limits ⟨0, []⟩ 0 20).required_rest_periods =
      [{ itype := "10-hour off-duty rest"
         reason := "11-hour driving limit reached"
         start_time := 11
         end_time := 21 },
       { itype := "10-hour off-duty rest"
         reason := "14-hour on-duty window limit reached"
         start_time := 14
         end_time := 24 }] ∧
      (14 : ℚ) < 21) ∧
    ((enforce_hos_limits ⟨0, []⟩ 0 12).cycle_compliant = true ∧
     (enforce_hos_limits ⟨0, []⟩ 0 12).driving_compliant = false ∧
     (enforce_hos_limits ⟨0, []⟩ 0 12).duty_window_compliant = true ∧
     1 ≤ (enforce_hos_limits ⟨0, []⟩ 0 12).required_breaks.length ∧
     1 ≤ (enforce_hos_limits ⟨0, []⟩ 0 12).required_rest_periods.length) := by
  refine ⟨fun self s d => ⟨enforce_hos_limits_required_rest_periods self s d, ?_⟩, ⟨?_, by norm_num⟩, ?_⟩
  · by_cases h1 : d ≤ (calculate_remaining_drive_time self).remaining_driving_hours <;>
      by_cases h2 : d ≤ (calculate_remaining_drive_time self).remaining_duty_window_hours <;>
      simp [enforce_hos_limits_required_rest_periods, h1, h2]
  · rw [enforce_hos_limits_required_rest_periods, calculate_remaining_drive_time_no_drives]
    norm_num
  · have hbr : calculate_required_breaks ⟨0, []⟩ 0 12 ≠ [] := by
      rw [calculate_required_breaks_no_drives_single 0 0 12 (by norm_num) (by norm_num)]
      simp
    refine ⟨?_, ?_, ?_, ?_, ?_⟩
    · simp [calculate_remaining_drive_time_no_drives, le_max_iff]
      norm_num
    · simp [calculate_remaining_drive_time_no_drives]
      norm_num
    · simp [calculate_remaining_drive_time_no_drives]
      norm_num
    · rw [enforce_hos_limits_required_breaks,
        calculate_required_breaks_no_drives_single 0 0 12 (by norm_num) (by norm_num)]
      norm_num
    · rw [enforce_hos_limits_required_rest_periods, calculate_remaining_drive_time_no_drives]
      norm_num

/-- Claim C5: each compliance flag is true exactly when the duration does not
exceed (non-strictly) the corresponding remaining envelope value;
`updated_cycle_hours = current_cycle_used + duration` with no cap at 70;
a fresh 5-hour trip yields all flags true with no breaks and no rests;
an exactly-11-hour trip is driving-compliant; a 5-hour trip at cycle 69
yields an uncapped 74. -/
theorem claim5_compliance_flags :
    (∀ (self : HOSCalculator) (s d : ℚ),
      ((enforce_hos_limits self s d).cycle_compliant = true ↔
        d ≤ (calculate_remaining_drive_time self).remaining_cycle_hours) ∧
      ((enforce_hos_limits self s d).driving_compliant = true ↔
        d ≤ (calculate_remaining_drive_time self).remaining_driving_hours) ∧
      ((enforce_hos_limits self s d).duty_window_compliant = true ↔
        d ≤ (calculate_remaining_drive_time self).remaining_duty_window_hours) ∧
      (enforce_hos_limits self s d).updated_cycle_hours = self.current_cycle_used + d) ∧
    ((enforce_hos_limits ⟨0, []⟩ 0 5).cycle_compliant = true ∧
     (enforce_hos_limits ⟨0, []⟩ 0 5).driving_compliant = true ∧
     (enforce_hos_limits ⟨0, []⟩ 0 5).duty_window_compliant = true ∧
     (enforce_hos_limits ⟨0, []⟩ 0 5).required_breaks = [] ∧
     (enforce_hos_limits ⟨0, []⟩ 0 5).required_rest_periods = [] ∧
     (enforce_hos_limits ⟨0, []⟩ 0 11).driving_compliant = true ∧
     (enforce_hos_limits ⟨69, []⟩ 0 5).updated_cycle_hours = 74) := by
  constructor
  · intro self s d
    refine ⟨?_, ?_, ?_, rfl⟩ <;> simp
  · refine ⟨?_, ?_, ?_, ?_, ?_, ?_, ?_⟩
    · simp [calculate_remaining_drive_time_no_drives, le_max_iff]
      norm_num
    · simp [calculate_remaining_drive_time_no_drives]
      norm_num
    · simp [calculate_remaining_drive_time_no_drives]
      norm_num
    · rw [enforce_hos_limits_required_breaks]
      apply calculate_required_breaks_eq_nil
      rw [hours_until_break_no_drives]
      norm_num
    · rw [enforce_hos_limits_required_rest_periods, calculate_remaining_drive_time_no_drives]
      norm_num
    · simp [calculate_remaining_drive_time_no_drives]
    · simp
      norm_num

/-- Claim C7: the output of `calculate_optimal_schedule`, as invoked by the
API view, is independent of the `previous_drives` field of the request: the
classmethod builds the evaluator from `current_cycle_used` alone and the view
never forwards `previous_drives`. -/
theorem claim7_previous_drives_independence (r₁ r₂ : HOSCalculationRequest)
    (ho : r₁.origin = r₂.origin) (hdst : r₁.destination = r₂.destination)
    (hdur : r₁.estimated_duration = r₂.estimated_duration)
    (hst : r₁.start_time = r₂.start_time)
    (hc : r₁.current_cycle_used = r₂.current_cycle_used) :
    HOSCalculationView_post r₁ = HOSCalculationView_post r₂ := by
  unfold HOSCalculationView_post
  rw [ho, hdst, hdur, hst, hc]

/-- Witness for claim C7: two concrete requests that differ only in
`previous_drives` produce the same response. -/
theorem claim7_previous_drives_independence_witness :
    HOSCalculationView_post ⟨"A", "B", 9, 0, 3, []⟩ =
      HOSCalculationView_post ⟨"A", "B", 9, 0, 3, [⟨0, 2⟩]⟩ :=
  claim7_previous_drives_independence _ _ rfl rfl rfl rfl rfl

/-- Claim C8: for every numeric input the evaluator raises no exception: the
embedding of `enforce_hos_limits` with every fallible operation explicit
(list indexing, loop fuel) always returns `.ok` of the total result. -/
theorem claim8_no_exceptions (self : HOSCalculator) (s d : ℚ) :
    enforce_hos_limitsE self s d = .ok (enforce_hos_limits self s d) := by
  simp only [enforce_hos_limitsE, calculate_remaining_drive_timeE_ok,
    calculate_required_breaks_some self s d]
  rfl

/-- Claim C9: both walk loops terminate for every input: the chosen fuels are
sufficient, so the break-scheduling loop and the synthesis loop always return
a value. -/
theorem claim9_termination :
    (∀ (self : HOSCalculator) (s d : ℚ),
      (breaksLoopFuel (breaksFuel d) s d
        (BREAK_AFTER_DRIVING_HOURS -
          pymod (previousDrivingHours self) BREAK_AFTER_DRIVING_HOURS)).isSome) ∧
    (∀ (o dst : String) (dur s cu : ℚ),
      (scheduleLoopFuel (enforce_hos_limits ⟨cu, []⟩ s dur).required_rest_periods
        (enforce_hos_limits ⟨cu, []⟩ s dur).required_breaks o dst
        (scheduleFuel (enforce_hos_limits ⟨cu, []⟩ s dur)) s dur true).isSome) := by
  constructor
  · intro self s d
    rw [calculate_required_breaks_some self s d]
    rfl
  · intro o dst dur s cu
    rw [calculate_optimal_schedule_schedule_some o dst dur s cu]
    rfl

/-- Claim C10: for a non-positive estimated duration the synthesis loop body
never runs: the schedule is empty, no breaks and no rests are required, and
the returned end time is `start_time + estimated_duration`. -/
theorem claim10_nonpositive_duration (o dst : String) (dur s cu : ℚ) (hd : dur ≤ 0) :
    (calculate_optimal_schedule o dst dur s cu).schedule = [] ∧
    (calculate_optimal_schedule o dst dur s cu).hos_data.required_breaks = [] ∧
    (calculate_optimal_schedule o dst dur s cu).hos_data.required_rest_periods = [] ∧
    (calculate_optimal_schedule o dst dur s cu).end_time = s + dur := by
  have hbr : calculate_required_breaks ⟨cu, []⟩ s dur = [] := by
    apply calculate_required_breaks_eq_nil
    rw [hours_until_break_no_drives]
    linarith
  have h11 : dur ≤ (calculate_remaining_drive_time ⟨cu, []⟩).remaining_driving_hours := by
    rw [calculate_remaining_drive_time_no_drives]
    show dur ≤ 11
    linarith
  have h14 : dur ≤ (calculate_remaining_drive_time ⟨cu, []⟩).remaining_duty_window_hours := by
    rw [calculate_remaining_drive_time_no_drives]
    show dur ≤ 14
    linarith
  have hre : (enforce_hos_limits ⟨cu, []⟩ s dur).required_rest_periods = [] := by
    rw [enforce_hos_limits_required_rest_periods, if_pos h11, if_pos h14]
    rfl
  have hsch : (calculate_optimal_schedule o dst dur s cu).schedule = [] := by
    have hsome := calculate_optimal_schedule_schedule_some o dst dur s cu
    obtain ⟨k, hk⟩ : ∃ k, scheduleFuel (enforce_hos_limits ⟨cu, []⟩ s dur) = k + 1 := ⟨_, rfl⟩
    rw [hk] at hsome
    simp only [scheduleLoopFuel] at hsome
    rw [if_neg (not_lt.mpr hd)] at hsome
    exact (Option.some.inj hsome).symm
  refine ⟨hsch, ?_, ?_, ?_⟩
  · rw [calculate_optimal_schedule_hos_data, enforce_hos_limits_required_breaks]
    exact hbr
  · rw [calculate_optimal_schedule_hos_data]
    exact hre
  · rw [calculate_optimal_schedule_end_time, hsch]
    simp

/-- Witness for claim C10 at duration `-1`. -/
theorem claim10_nonpositive_duration_witness :
    (calculate_optimal_schedule "A" "B" (-1) 0 0).schedule = [] :=
  (claim10_nonpositive_duration "A" "B" (-1) 0 0 (by norm_num)).1

end ELD
